import Mathlib

/-!
A shallow embedding of the devirtualization pass in
`src/opt/virtual_scope/MethodDevirtualizer.cpp`, together with proofs of the
behavioural properties its specification states.

Machine integers (`uint16_t` argument/range counts) are modelled as `Nat`
with explicit `% 65536` where the C++ arithmetic can wrap.  External
collaborators (the opcode enumeration, the instruction record, the method
resolver, the retention-policy lookup) are modelled structurally; the
functions of the translation unit itself are transcribed from the source.
-/

set_option autoImplicit false

/-- Modelled from the spec: the closed opcode variant tag (virtual / super /
direct / static call, each in explicit or range form, the receiver-load
pseudo-opcode, and non-call opcodes with and without a register window);
the `DexOpcode` enumeration itself is declared outside this translation
unit. -/
inductive DexOpcode where
  | invoke_virtual
  | invoke_virtual_range
  | invoke_super
  | invoke_super_range
  | invoke_direct
  | invoke_direct_range
  | invoke_static
  | invoke_static_range
  | load_param_object
  | other_range
  | other
deriving DecidableEq, Repr

/-- Modelled from the spec: a call-target reference, which is either already
a concrete method (identified by a numeric id) or an abstract reference
that must be resolved externally. -/
structure MethodRef where
  mid : Nat
  concrete : Bool
deriving DecidableEq, Repr

/-- Modelled from the spec: the resolver search strategies `MethodSearch::Virtual`
and `MethodSearch::Any` of the external `Resolver`. -/
inductive MethodSearch where
  | Virtual
  | Any
deriving DecidableEq, Repr

/-- Modelled from the spec: one bytecode instruction — opcode, optional
call-target reference, explicit source operands, argument word count,
range window (base, size) and destination register.  Register numbers and
the 16-bit counts are `Nat`s. -/
structure IRInstruction where
  opcode : DexOpcode
  methodRef : Option MethodRef
  srcs : List Nat
  argWordCount : Nat
  rangeBase : Nat
  rangeSize : Nat
  dest : Nat
deriving DecidableEq, Repr

/-- Modelled from the spec: the Outcome Report (`DevirtualizerMetrics`),
declared in the header outside this translation unit. -/
structure DevirtualizerMetrics where
  num_virtual_calls : Nat
  num_super_calls : Nat
  num_direct_calls : Nat
  num_methods_not_using_this : Nat
  num_methods_using_this : Nat
deriving DecidableEq, Repr

/-- Modelled from the spec: a method — identity, the external "keep"
retention bit, external and abstract flags, and its body (`get_code`,
`none` when the method has no code). -/
structure DexMethod where
  mid : Nat
  isKeepM : Bool
  isExternalM : Bool
  isAbstractM : Bool
  code : Option (List IRInstruction)
deriving DecidableEq, Repr

/-- Transcribed from `is_invoke_virtual` (MethodDevirtualizer.cpp:22). -/
def is_invoke_virtual (op : DexOpcode) : Bool :=
  op == DexOpcode.invoke_virtual || op == DexOpcode.invoke_virtual_range

/-- Transcribed from `is_invoke_super` (MethodDevirtualizer.cpp:26). -/
def is_invoke_super (op : DexOpcode) : Bool :=
  op == DexOpcode.invoke_super || op == DexOpcode.invoke_super_range

/-- Transcribed from `is_invoke_direct` (MethodDevirtualizer.cpp:30). -/
def is_invoke_direct (op : DexOpcode) : Bool :=
  op == DexOpcode.invoke_direct || op == DexOpcode.invoke_direct_range

/-- Transcribed from `is_invoke_static` (MethodDevirtualizer.cpp:34). -/
def is_invoke_static (op : DexOpcode) : Bool :=
  op == DexOpcode.invoke_static || op == DexOpcode.invoke_static_range

/-- The range-encoded invoke opcodes (`is_invoke_range` of the IR library). -/
def is_invoke_range (op : DexOpcode) : Bool :=
  op == DexOpcode.invoke_virtual_range || op == DexOpcode.invoke_super_range ||
  op == DexOpcode.invoke_direct_range || op == DexOpcode.invoke_static_range

/-- `opcode::has_range`: every opcode carrying a register window, the
range-form invokes plus non-call range opcodes. -/
def has_range (op : DexOpcode) : Bool :=
  is_invoke_range op || op == DexOpcode.other_range

/-- Transcribed from `invoke_virtual_to_static` (MethodDevirtualizer.cpp:38);
`none` models the `always_assert(false)` default branch. -/
def invoke_virtual_to_static (op : DexOpcode) : Option DexOpcode :=
  match op with
  | DexOpcode.invoke_virtual => some DexOpcode.invoke_static
  | DexOpcode.invoke_virtual_range => some DexOpcode.invoke_static_range
  | _ => none

/-- Transcribed from `invoke_super_to_static` (MethodDevirtualizer.cpp:49). -/
def invoke_super_to_static (op : DexOpcode) : Option DexOpcode :=
  match op with
  | DexOpcode.invoke_super => some DexOpcode.invoke_static
  | DexOpcode.invoke_super_range => some DexOpcode.invoke_static_range
  | _ => none

/-- Transcribed from `invoke_direct_to_static` (MethodDevirtualizer.cpp:60). -/
def invoke_direct_to_static (op : DexOpcode) : Option DexOpcode :=
  match op with
  | DexOpcode.invoke_direct => some DexOpcode.invoke_static
  | DexOpcode.invoke_direct_range => some DexOpcode.invoke_static_range
  | _ => none

/-- Transcribed from `patch_call_site` (MethodDevirtualizer.cpp:71): translate
the opcode to its static form, bump the counter of the original call kind,
and point the instruction at the (concrete) callee.  `none` models the
`always_assert_log(false, ...)` branch for an unrecognized call opcode. -/
def patch_call_site (callee : Nat) (inst : IRInstruction)
    (metrics : DevirtualizerMetrics) :
    Option (IRInstruction × DevirtualizerMetrics) :=
  let op := inst.opcode
  if is_invoke_virtual op then
    match invoke_virtual_to_static op with
    | none => none
    | some op2 =>
      some ({ inst with opcode := op2, methodRef := some ⟨callee, true⟩ },
            { metrics with num_virtual_calls := metrics.num_virtual_calls + 1 })
  else if is_invoke_super op then
    match invoke_super_to_static op with
    | none => none
    | some op2 =>
      some ({ inst with opcode := op2, methodRef := some ⟨callee, true⟩ },
            { metrics with num_super_calls := metrics.num_super_calls + 1 })
  else if is_invoke_direct op then
    match invoke_direct_to_static op with
    | none => none
    | some op2 =>
      some ({ inst with opcode := op2, methodRef := some ⟨callee, true⟩ },
            { metrics with num_direct_calls := metrics.num_direct_calls + 1 })
  else
    none

/-- Resolution of a call-target reference: a concrete reference stands for
itself, a non-concrete one goes through the external `resolve_method`
oracle with the given search strategy (MethodDevirtualizer.cpp:103 and :144). -/
def resolveTarget (resolve : Nat → MethodSearch → Option Nat)
    (search : MethodSearch) (r : MethodRef) : Option Nat :=
  if r.concrete then some r.mid else resolve r.mid search

/-- The replacement instruction built at MethodDevirtualizer.cpp:112:
`new IRInstruction(OPCODE_INVOKE_STATIC)` with the callee set and a zero
argument word count. -/
def mkZeroArgStatic (t : Nat) : IRInstruction :=
  ⟨DexOpcode.invoke_static, some ⟨t, true⟩, [], 0, 0, 0, 0⟩

/-- The operand-shift loop at MethodDevirtualizer.cpp:121: for
`i < nargs - 1` (int arithmetic, so the loop body never runs when
`nargs = 0`) the slot `i` receives the original slot `i + 1`; slots at or
beyond `nargs - 1` keep their original contents. -/
def shiftSrcs (srcs : List Nat) (nargs : Nat) : List Nat :=
  (List.range srcs.length).map fun i =>
    if i + 1 < nargs then srcs.getD (i + 1) 0 else srcs.getD i 0

/-- The explicit-form receiver drop (MethodDevirtualizer.cpp:119-125):
shift every remaining operand one slot toward the front and store
`nargs - 1` into the 16-bit argument word count; the `+ 65535` models the
`uint16_t` wraparound the C++ assignment performs when `nargs = 0`. -/
def dropFirstArgExplicit (inst : IRInstruction) : IRInstruction :=
  let nargs := inst.argWordCount
  { inst with
    srcs := shiftSrcs inst.srcs nargs,
    argWordCount := (nargs + 65535) % 65536 }

/-- One instruction of the drop-receiver fixer
(MethodDevirtualizer.cpp:97-126): skip instructions without a method
reference, resolve non-concrete references with `MethodSearch::Any`, skip
targets outside `statics`, otherwise patch the call site and drop the
receiver argument.  The middle component records the deferred replacement
for the degenerate size-1 range case; `none` models an assertion failure. -/
def dropThisFixerStep (resolve : Nat → MethodSearch → Option Nat)
    (statics : List Nat) (inst : IRInstruction)
    (metrics : DevirtualizerMetrics) :
    Option (IRInstruction × Option IRInstruction × DevirtualizerMetrics) :=
  match inst.methodRef with
  | none => some (inst, none, metrics)
  | some r =>
    match resolveTarget resolve MethodSearch.Any r with
    | none => some (inst, none, metrics)
    | some t =>
      if statics.contains t then
        match patch_call_site t inst metrics with
        | none => none
        | some (inst1, metrics1) =>
          if is_invoke_range inst1.opcode then
            if inst1.rangeSize == 1 then
              some (inst1, some (mkZeroArgStatic t), metrics1)
            else
              some ({ inst1 with
                        rangeBase := (inst1.rangeBase + 1) % 65536,
                        rangeSize := (inst1.rangeSize + 65535) % 65536 },
                    none, metrics1)
          else
            some (dropFirstArgExplicit inst1, none, metrics1)
      else
        some (inst, none, metrics)

/-- The scan phase of `fix_call_sites_and_drop_this_arg`: walk the
instruction list once, patching in place and recording the deferred
replacements alongside each instruction. -/
def scanDrop (resolve : Nat → MethodSearch → Option Nat)
    (statics : List Nat) :
    List IRInstruction → DevirtualizerMetrics →
    Option (List (IRInstruction × Option IRInstruction) × DevirtualizerMetrics)
  | [], metrics => some ([], metrics)
  | inst :: rest, metrics =>
    match dropThisFixerStep resolve statics inst metrics with
    | none => none
    | some (inst1, repl, metrics1) =>
      match scanDrop resolve statics rest metrics1 with
      | none => none
      | some (outRest, metricsF) => some ((inst1, repl) :: outRest, metricsF)

/-- The replacement pass at MethodDevirtualizer.cpp:127-129: after the scan
completes, each recorded original is swapped for its replacement. -/
def applyReplacements
    (scanned : List (IRInstruction × Option IRInstruction)) :
    List IRInstruction :=
  scanned.map fun p => p.2.getD p.1

/-- Transcribed from `fix_call_sites_and_drop_this_arg`
(MethodDevirtualizer.cpp:91-133) on one method body: scan and patch every
instruction, then apply the deferred replacements. -/
def fix_call_sites_and_drop_this_arg
    (resolve : Nat → MethodSearch → Option Nat) (statics : List Nat)
    (code : List IRInstruction) (metrics : DevirtualizerMetrics) :
    Option (List IRInstruction × DevirtualizerMetrics) :=
  match scanDrop resolve statics code metrics with
  | none => none
  | some (scanned, metricsF) => some (applyReplacements scanned, metricsF)

/-- One instruction of the keep-receiver fixer
(MethodDevirtualizer.cpp:138-153): skip instructions without a method
reference, resolve non-concrete references with `MethodSearch::Virtual`,
skip targets outside `target_methods`; `always_assert` that the call is
not already static, then patch.  The argument list is not touched. -/
def keepFixerStep (resolve : Nat → MethodSearch → Option Nat)
    (targets : List Nat) (inst : IRInstruction)
    (metrics : DevirtualizerMetrics) :
    Option (IRInstruction × DevirtualizerMetrics) :=
  match inst.methodRef with
  | none => some (inst, metrics)
  | some r =>
    match resolveTarget resolve MethodSearch.Virtual r with
    | none => some (inst, metrics)
    | some t =>
      if targets.contains t then
        if is_invoke_static inst.opcode then none
        else patch_call_site t inst metrics
      else
        some (inst, metrics)

/-- Transcribed from `fix_call_sites` (MethodDevirtualizer.cpp:135-156) on
one method body: patch each call site in place, keeping the receiver. -/
def fix_call_sites (resolve : Nat → MethodSearch → Option Nat)
    (targets : List Nat) :
    List IRInstruction → DevirtualizerMetrics →
    Option (List IRInstruction × DevirtualizerMetrics)
  | [], metrics => some ([], metrics)
  | inst :: rest, metrics =>
    match keepFixerStep resolve targets inst metrics with
    | none => none
    | some (inst1, metrics1) =>
      match fix_call_sites resolve targets rest metrics1 with
      | none => none
      | some (outRest, metricsF) => some (inst1 :: outRest, metricsF)

/-- One instruction's receiver-register test inside the scan of `uses_this`
(MethodDevirtualizer.cpp:178-190): a range-form instruction uses the
register when it falls inside the window; any instruction uses it when it
equals one of the explicit source operands. -/
def usedIn (r : Nat) (insn : IRInstruction) : Bool :=
  (has_range insn.opcode &&
     (decide (insn.rangeBase ≤ r) &&
      decide (r < insn.rangeBase + insn.rangeSize))) ||
  insn.srcs.any fun s => s == r

/-- Transcribed from `uses_this` (MethodDevirtualizer.cpp:171-193): assert
the method has code, read the first instruction (undefined for an empty
body, modelled as `none`), assert it is the receiver load, then scan every
instruction for a use of the receiver register.  `none` models the
assertion failures. -/
def uses_this (method : DexMethod) : Option Bool :=
  match method.code with
  | none => none
  | some body =>
    match body.head? with
    | none => none
    | some this_insn =>
      if this_insn.opcode == DexOpcode.load_param_object then
        some (body.any (usedIn this_insn.dest))
      else none

/-- Transcribed from `devirtualizable_methods`
(MethodDevirtualizer.cpp:231-241): drop candidates that are kept by the
external retention policy, external, or abstract. -/
def devirtualizable_methods (candidates : List DexMethod) : List DexMethod :=
  candidates.filter fun m => !(m.isKeepM || m.isExternalM || m.isAbstractM)

/-- The `uses_this` filter loop of `devirtualizable_methods_not_using_this`
(MethodDevirtualizer.cpp:246-251), with assertion failures propagated. -/
def filterNotUsingThis : List DexMethod → Option (List DexMethod)
  | [] => some []
  | m :: ms =>
    match uses_this m with
    | none => none
    | some true => filterNotUsingThis ms
    | some false => (filterNotUsingThis ms).map fun l => m :: l

/-- Transcribed from `devirtualizable_methods_not_using_this`
(MethodDevirtualizer.cpp:243-253). -/
def devirtualizable_methods_not_using_this
    (candidates : List DexMethod) : Option (List DexMethod) :=
  filterNotUsingThis (devirtualizable_methods candidates)

/-- A call instruction's "will be patched" test in the keep-receiver fixer:
it has a method reference whose `MethodSearch.Virtual` resolution lands in
the target set. -/
def keepTouches (resolve : Nat → MethodSearch → Option Nat)
    (targets : List Nat) (inst : IRInstruction) : Bool :=
  match inst.methodRef with
  | none => false
  | some r =>
    match resolveTarget resolve MethodSearch.Virtual r with
    | none => false
    | some t => targets.contains t

/-- The reference predicate of the specification: the register `r` appears
as an explicit source operand of `insn`, or inside `insn`'s register
window when `insn` is range-form. -/
def refsReg (r : Nat) (insn : IRInstruction) : Prop :=
  (∃ s ∈ insn.srcs, s = r) ∨
  (has_range insn.opcode = true ∧
     insn.rangeBase ≤ r ∧ r < insn.rangeBase + insn.rangeSize)

/-! ### Helper lemmas -/

lemma shiftSrcs_length (srcs : List Nat) (nargs : Nat) :
    (shiftSrcs srcs nargs).length = srcs.length := by
  simp [shiftSrcs]

lemma shiftSrcs_getD (srcs : List Nat) (nargs i : Nat) (hi : i < srcs.length) :
    (shiftSrcs srcs nargs).getD i 0 =
      if i + 1 < nargs then srcs.getD (i + 1) 0 else srcs.getD i 0 := by
  have h1 : i < (shiftSrcs srcs nargs).length := by
    rw [shiftSrcs_length]; exact hi
  rw [List.getD_eq_getElem _ _ h1]
  simp [shiftSrcs, hi]

lemma patch_call_site_spec {callee : Nat} {inst inst1 : IRInstruction}
    {metrics metrics1 : DevirtualizerMetrics}
    (h : patch_call_site callee inst metrics = some (inst1, metrics1)) :
    is_invoke_static inst1.opcode = true ∧
    is_invoke_range inst1.opcode = is_invoke_range inst.opcode ∧
    inst1.methodRef = some ⟨callee, true⟩ ∧
    inst1.srcs = inst.srcs ∧ inst1.argWordCount = inst.argWordCount ∧
    inst1.rangeBase = inst.rangeBase ∧ inst1.rangeSize = inst.rangeSize ∧
    inst1.dest = inst.dest := by
  obtain ⟨o, mr, s, a, rb, rs, d⟩ := inst
  cases o <;>
    simp_all [patch_call_site, is_invoke_virtual, is_invoke_super,
      is_invoke_direct, is_invoke_static, is_invoke_range,
      invoke_virtual_to_static, invoke_super_to_static,
      invoke_direct_to_static] <;>
    (obtain ⟨h1, h2⟩ := h; subst h1; simp; try decide)

lemma patch_call_site_counters {callee : Nat} {inst inst1 : IRInstruction}
    {metrics metrics1 : DevirtualizerMetrics}
    (h : patch_call_site callee inst metrics = some (inst1, metrics1)) :
    (is_invoke_virtual inst.opcode = true →
       metrics1 = { metrics with
                      num_virtual_calls := metrics.num_virtual_calls + 1 }) ∧
    (is_invoke_super inst.opcode = true →
       metrics1 = { metrics with
                      num_super_calls := metrics.num_super_calls + 1 }) ∧
    (is_invoke_direct inst.opcode = true →
       metrics1 = { metrics with
                      num_direct_calls := metrics.num_direct_calls + 1 }) := by
  obtain ⟨o, mr, s, a, rb, rs, d⟩ := inst
  cases o <;>
    simp_all [patch_call_site, is_invoke_virtual, is_invoke_super,
      is_invoke_direct, invoke_virtual_to_static, invoke_super_to_static,
      invoke_direct_to_static]

lemma patch_call_site_isSome {callee : Nat} {inst : IRInstruction}
    (metrics : DevirtualizerMetrics)
    (h : (is_invoke_virtual inst.opcode || is_invoke_super inst.opcode ||
          is_invoke_direct inst.opcode) = true) :
    ∃ p, patch_call_site callee inst metrics = some p := by
  obtain ⟨o, mr, s, a, rb, rs, d⟩ := inst
  cases o <;>
    simp_all [patch_call_site, is_invoke_virtual, is_invoke_super,
      is_invoke_direct, invoke_virtual_to_static, invoke_super_to_static,
      invoke_direct_to_static]

lemma patch_call_site_none_of_static {callee : Nat} {inst : IRInstruction}
    (metrics : DevirtualizerMetrics)
    (h : is_invoke_static inst.opcode = true) :
    patch_call_site callee inst metrics = none := by
  obtain ⟨o, mr, s, a, rb, rs, d⟩ := inst
  cases o <;> simp_all [patch_call_site, is_invoke_virtual, is_invoke_super,
    is_invoke_direct, is_invoke_static]

lemma static_range_opcode {o : DexOpcode}
    (h1 : is_invoke_static o = true) (h2 : is_invoke_range o = true) :
    o = DexOpcode.invoke_static_range := by
  cases o <;> simp_all [is_invoke_static, is_invoke_range]

/-! ### Claim C10 -/

/-- Claim C10: for every explicit-form call instruction rewritten by the
drop-receiver protocol, under the precondition that the argument word
count is at least 1 (the receiver is present) and is a valid 16-bit count
matching the operand-slot count, the operand-shift loop only reads
in-range slots and the 16-bit decrement does not underflow: the resulting
argument count is exactly the original count minus one, a valid
non-negative 16-bit value. -/
theorem C10_explicit_drop_no_underflow
    (inst : IRInstruction)
    (h1 : 1 ≤ inst.argWordCount) (h2 : inst.argWordCount < 65536)
    (hlen : inst.srcs.length = inst.argWordCount) :
    (dropFirstArgExplicit inst).argWordCount = inst.argWordCount - 1 ∧
    (dropFirstArgExplicit inst).argWordCount < 65536 ∧
    (dropFirstArgExplicit inst).srcs.length = inst.srcs.length ∧
    (∀ i, i + 1 < inst.argWordCount →
       (dropFirstArgExplicit inst).srcs.getD i 0 = inst.srcs.getD (i + 1) 0) := by
  refine ⟨?_, ?_, ?_, ?_⟩
  · simp only [dropFirstArgExplicit]
    omega
  · simp only [dropFirstArgExplicit]
    omega
  · simp [dropFirstArgExplicit, shiftSrcs_length]
  · intro i hi
    have hi' : i < inst.srcs.length := by omega
    simp only [dropFirstArgExplicit]
    rw [shiftSrcs_getD _ _ _ hi']
    simp [hi]

/-- Witness for C10 at a concrete two-argument virtual call. -/
theorem C10_witness :
    (dropFirstArgExplicit
        ⟨DexOpcode.invoke_virtual, some ⟨3, true⟩, [5, 9], 2, 0, 0, 0⟩).argWordCount
      = 2 - 1 ∧
    (dropFirstArgExplicit
        ⟨DexOpcode.invoke_virtual, some ⟨3, true⟩, [5, 9], 2, 0, 0, 0⟩).argWordCount
      < 65536 ∧
    (dropFirstArgExplicit
        ⟨DexOpcode.invoke_virtual, some ⟨3, true⟩, [5, 9], 2, 0, 0, 0⟩).srcs.length
      = ([5, 9] : List Nat).length ∧
    (∀ i, i + 1 < 2 →
       (dropFirstArgExplicit
           ⟨DexOpcode.invoke_virtual, some ⟨3, true⟩, [5, 9], 2, 0, 0, 0⟩).srcs.getD i 0
         = ([5, 9] : List Nat).getD (i + 1) 0) :=
  C10_explicit_drop_no_underflow
    ⟨DexOpcode.invoke_virtual, some ⟨3, true⟩, [5, 9], 2, 0, 0, 0⟩
    (by decide) (by decide) (by decide)

lemma keepFixerStep_frame {resolve : Nat → MethodSearch → Option Nat}
    {targets : List Nat} {inst inst' : IRInstruction}
    {metrics metrics' : DevirtualizerMetrics}
    (h : keepFixerStep resolve targets inst metrics = some (inst', metrics')) :
    inst'.srcs = inst.srcs ∧ inst'.argWordCount = inst.argWordCount ∧
    inst'.rangeBase = inst.rangeBase ∧ inst'.rangeSize = inst.rangeSize ∧
    inst'.dest = inst.dest := by
  simp only [keepFixerStep] at h
  split at h
  · simp only [Option.some.injEq, Prod.mk.injEq] at h
    obtain ⟨h1, h2⟩ := h
    subst h1
    exact ⟨rfl, rfl, rfl, rfl, rfl⟩
  · split at h
    · simp only [Option.some.injEq, Prod.mk.injEq] at h
      obtain ⟨h1, h2⟩ := h
      subst h1
      exact ⟨rfl, rfl, rfl, rfl, rfl⟩
    · split at h
      · split at h
        · exact absurd h (by simp)
        · obtain ⟨_, _, _, hs, ha, hrb, hrs, hd⟩ := patch_call_site_spec h
          exact ⟨hs, ha, hrb, hrs, hd⟩
      · simp only [Option.some.injEq, Prod.mk.injEq] at h
        obtain ⟨h1, h2⟩ := h
        subst h1
        exact ⟨rfl, rfl, rfl, rfl, rfl⟩

lemma dropThisFixerStep_touched_some {resolve : Nat → MethodSearch → Option Nat}
    {statics : List Nat} {r : MethodRef} {t : Nat}
    {inst inst1 : IRInstruction}
    {metrics metrics1 : DevirtualizerMetrics}
    (hm : inst.methodRef = some r)
    (hta : resolveTarget resolve MethodSearch.Any r = some t)
    (hin : statics.contains t = true)
    (hp : patch_call_site t inst metrics = some (inst1, metrics1)) :
    dropThisFixerStep resolve statics inst metrics =
      (if is_invoke_range inst1.opcode then
         if inst1.rangeSize == 1 then
           some (inst1, some (mkZeroArgStatic t), metrics1)
         else
           some ({ inst1 with
                     rangeBase := (inst1.rangeBase + 1) % 65536,
                     rangeSize := (inst1.rangeSize + 65535) % 65536 },
                 none, metrics1)
       else
         some (dropFirstArgExplicit inst1, none, metrics1)) := by
  simp only [dropThisFixerStep, hm, hta, hin, if_true, hp]

lemma dropThisFixerStep_touched_none {resolve : Nat → MethodSearch → Option Nat}
    {statics : List Nat} {r : MethodRef} {t : Nat} {inst : IRInstruction}
    {metrics : DevirtualizerMetrics}
    (hm : inst.methodRef = some r)
    (hta : resolveTarget resolve MethodSearch.Any r = some t)
    (hin : statics.contains t = true)
    (hp : patch_call_site t inst metrics = none) :
    dropThisFixerStep resolve statics inst metrics = none := by
  simp only [dropThisFixerStep, hm, hta, hin, if_true, hp]

/-! ### Claim C1 -/

/-- Claim C1: every call instruction patched by the drop-receiver conversion
loses exactly one argument — in explicit form every remaining source
operand shifts one position toward the front and the argument word count
decrements by one; in range form with window size greater than 1 the base
register advances by one and the size decrements by one — while every call
instruction patched by a keep-receiver conversion keeps its argument count
(and whole argument encoding) unchanged. -/
theorem C1_argument_count_correspondence
    (resolve : Nat → MethodSearch → Option Nat)
    (statics targets : List Nat) (r : MethodRef) (t : Nat)
    (inst : IRInstruction) (metrics : DevirtualizerMetrics)
    (hm : inst.methodRef = some r)
    (hta : resolveTarget resolve MethodSearch.Any r = some t)
    (hin : statics.contains t = true) :
    (∀ inst' repl metrics',
       dropThisFixerStep resolve statics inst metrics =
           some (inst', repl, metrics') →
       (is_invoke_range inst.opcode = false →
          1 ≤ inst.argWordCount → inst.argWordCount < 65536 →
          inst.srcs.length = inst.argWordCount →
          inst'.argWordCount = inst.argWordCount - 1 ∧
          (∀ i, i + 1 < inst.argWordCount →
             inst'.srcs.getD i 0 = inst.srcs.getD (i + 1) 0)) ∧
       (is_invoke_range inst.opcode = true → 1 < inst.rangeSize →
          inst.rangeBase + inst.rangeSize ≤ 65536 →
          repl = none ∧ inst'.rangeBase = inst.rangeBase + 1 ∧
          inst'.rangeSize = inst.rangeSize - 1 ∧
          inst'.argWordCount = inst.argWordCount)) ∧
    (∀ inst' metrics',
       keepFixerStep resolve targets inst metrics = some (inst', metrics') →
       inst'.argWordCount = inst.argWordCount ∧ inst'.srcs = inst.srcs ∧
       inst'.rangeBase = inst.rangeBase ∧ inst'.rangeSize = inst.rangeSize) := by
  constructor
  · intro inst' repl metrics' hstep
    cases hp : patch_call_site t inst metrics with
    | none =>
      rw [dropThisFixerStep_touched_none hm hta hin hp] at hstep
      cases hstep
    | some p =>
      obtain ⟨inst1, metrics1⟩ := p
      rw [dropThisFixerStep_touched_some hm hta hin hp] at hstep
      obtain ⟨hstat, hrng, hmr, hs, ha, hrb, hrs, hd⟩ := patch_call_site_spec hp
      constructor
      · intro hexp h1 h2 hlen
        rw [hrng, hexp] at hstep
        simp only [Bool.false_eq_true, if_false] at hstep
        simp only [Option.some.injEq, Prod.mk.injEq] at hstep
        obtain ⟨he, _, _⟩ := hstep
        subst he
        constructor
        · simp only [dropFirstArgExplicit, ha]
          omega
        · intro i hi
          have hi' : i < inst1.srcs.length := by rw [hs, hlen]; omega
          simp only [dropFirstArgExplicit]
          rw [shiftSrcs_getD _ _ _ hi']
          rw [ha, hs]
          simp [hi]
      · intro hrange hsz hbound
        rw [hrng, hrange] at hstep
        simp only [if_true] at hstep
        have hne : (inst1.rangeSize == 1) = false := by
          rw [hrs]; simp; omega
        rw [hne] at hstep
        simp only [Bool.false_eq_true, if_false, Option.some.injEq,
          Prod.mk.injEq] at hstep
        obtain ⟨he, hrepl, _⟩ := hstep
        subst he
        refine ⟨hrepl.symm, ?_, ?_, ?_⟩
        · simp only [hrb]; omega
        · simp only [hrs]; omega
        · exact ha
  · intro inst' metrics' hstep
    obtain ⟨hs, ha, hrb, hrs, _⟩ := keepFixerStep_frame hstep
    exact ⟨ha, hs, hrb, hrs⟩

/-- Concrete artefacts for the witnesses: a trivial resolver, explicit- and
range-form virtual calls targeting method 3, and zeroed metrics. -/
def resolveNone : Nat → MethodSearch → Option Nat := fun _ _ => none

def instV2 : IRInstruction :=
  ⟨DexOpcode.invoke_virtual, some ⟨3, true⟩, [5, 9], 2, 0, 0, 0⟩

def metrics0 : DevirtualizerMetrics := ⟨0, 0, 0, 0, 0⟩

/-- Witness for C1 at a concrete explicit two-argument virtual call. -/
theorem C1_witness :
    (∀ inst' repl metrics',
       dropThisFixerStep resolveNone [3] instV2 metrics0 =
           some (inst', repl, metrics') →
       (is_invoke_range instV2.opcode = false →
          1 ≤ instV2.argWordCount → instV2.argWordCount < 65536 →
          instV2.srcs.length = instV2.argWordCount →
          inst'.argWordCount = instV2.argWordCount - 1 ∧
          (∀ i, i + 1 < instV2.argWordCount →
             inst'.srcs.getD i 0 = instV2.srcs.getD (i + 1) 0)) ∧
       (is_invoke_range instV2.opcode = true → 1 < instV2.rangeSize →
          instV2.rangeBase + instV2.rangeSize ≤ 65536 →
          repl = none ∧ inst'.rangeBase = instV2.rangeBase + 1 ∧
          inst'.rangeSize = instV2.rangeSize - 1 ∧
          inst'.argWordCount = instV2.argWordCount)) ∧
    (∀ inst' metrics',
       keepFixerStep resolveNone [3] instV2 metrics0 =
           some (inst', metrics') →
       inst'.argWordCount = instV2.argWordCount ∧ inst'.srcs = instV2.srcs ∧
       inst'.rangeBase = instV2.rangeBase ∧
       inst'.rangeSize = instV2.rangeSize) :=
  C1_argument_count_correspondence resolveNone [3] [3] ⟨3, true⟩ 3 instV2
    metrics0 (by rfl) (by rfl) (by decide)

/-! ### Claim C4 -/

/-- Claim C4: in the keep-receiver rewrite protocol, a patched call
instruction differs from the original only in its opcode and call-target
reference; the explicit source-operand list, the argument word count, the
range window (base and size) and the destination register are all
unchanged. -/
theorem C4_keep_receiver_frame
    (resolve : Nat → MethodSearch → Option Nat) (targets : List Nat)
    (inst inst' : IRInstruction) (metrics metrics' : DevirtualizerMetrics)
    (h : keepFixerStep resolve targets inst metrics = some (inst', metrics')) :
    inst' = { inst with opcode := inst'.opcode,
                        methodRef := inst'.methodRef } := by
  obtain ⟨hs, ha, hrb, hrs, hd⟩ := keepFixerStep_frame h
  obtain ⟨o', mr', s', a', rb', rs', d'⟩ := inst'
  obtain ⟨o, mr, s, a, rb, rs, d⟩ := inst
  simp_all

/-- Witness for C4: patching a concrete explicit virtual call in the
keep-receiver protocol changes only opcode and target. -/
theorem C4_witness :
    ({ opcode := DexOpcode.invoke_static, methodRef := some ⟨3, true⟩,
       srcs := [5, 9], argWordCount := 2, rangeBase := 0, rangeSize := 0,
       dest := 0 } : IRInstruction) =
      { instV2 with
          opcode := ({ opcode := DexOpcode.invoke_static,
                       methodRef := some ⟨3, true⟩, srcs := [5, 9],
                       argWordCount := 2, rangeBase := 0, rangeSize := 0,
                       dest := 0 } : IRInstruction).opcode,
          methodRef := ({ opcode := DexOpcode.invoke_static,
                          methodRef := some ⟨3, true⟩, srcs := [5, 9],
                          argWordCount := 2, rangeBase := 0, rangeSize := 0,
                          dest := 0 } : IRInstruction).methodRef } :=
  C4_keep_receiver_frame resolveNone [3] instV2
    { opcode := DexOpcode.invoke_static, methodRef := some ⟨3, true⟩,
      srcs := [5, 9], argWordCount := 2, rangeBase := 0, rangeSize := 0,
      dest := 0 }
    metrics0 ⟨1, 0, 0, 0, 0⟩ (by decide)

/-! ### Claim C7 -/

/-- Claim C7: in both rewrite protocols, a call instruction already encoded
as a static call whose resolved target is in the current target set makes
the run fail fast (the internal-consistency assertion fires, modelled by
`none`) instead of being patched or silently skipped. -/
theorem C7_already_static_fails
    (resolve : Nat → MethodSearch → Option Nat)
    (statics targets : List Nat) (r : MethodRef) (t tv : Nat)
    (inst : IRInstruction) (metrics : DevirtualizerMetrics)
    (hstatic : is_invoke_static inst.opcode = true)
    (hm : inst.methodRef = some r)
    (hta : resolveTarget resolve MethodSearch.Any r = some t)
    (hin : statics.contains t = true)
    (htv : resolveTarget resolve MethodSearch.Virtual r = some tv)
    (hinv : targets.contains tv = true) :
    dropThisFixerStep resolve statics inst metrics = none ∧
    keepFixerStep resolve targets inst metrics = none := by
  constructor
  · exact dropThisFixerStep_touched_none hm hta hin
      (patch_call_site_none_of_static metrics hstatic)
  · simp only [keepFixerStep, hm, htv, hinv, hstatic, if_true]

/-- Concrete already-static call used by the C7 witness. -/
def instStatic : IRInstruction :=
  ⟨DexOpcode.invoke_static, some ⟨3, true⟩, [5], 1, 0, 0, 0⟩

/-- Witness for C7 at a concrete static call whose target is in both
target sets. -/
theorem C7_witness :
    dropThisFixerStep resolveNone [3] instStatic metrics0 = none ∧
    keepFixerStep resolveNone [3] instStatic metrics0 = none :=
  C7_already_static_fails resolveNone [3] [3] ⟨3, true⟩ 3 3 instStatic
    metrics0 (by decide) (by rfl) (by rfl) (by decide) (by rfl) (by decide)

/-! ### Claim C9 -/

/-- Claim C9: during call-site rewriting a non-concrete call-target
reference is resolved through the external resolver with the `Any` search
strategy in the drop-receiver rewrite and the `Virtual` strategy in the
keep-receiver rewrite (each rewrite's behaviour depends on the resolver
only through that strategy, and a concrete reference is never resolved);
in both rewrites an instruction whose resolved target is not in the
current target set is left entirely untouched. -/
theorem C9_resolver_strategies
    (resolve₁ resolve₂ : Nat → MethodSearch → Option Nat)
    (statics targets : List Nat) (inst : IRInstruction)
    (metrics : DevirtualizerMetrics) :
    ((∀ n, resolve₁ n MethodSearch.Any = resolve₂ n MethodSearch.Any) →
       dropThisFixerStep resolve₁ statics inst metrics =
         dropThisFixerStep resolve₂ statics inst metrics) ∧
    ((∀ n, resolve₁ n MethodSearch.Virtual = resolve₂ n MethodSearch.Virtual) →
       keepFixerStep resolve₁ targets inst metrics =
         keepFixerStep resolve₂ targets inst metrics) ∧
    (∀ r, inst.methodRef = some r → r.concrete = true →
       resolveTarget resolve₁ MethodSearch.Any r = some r.mid ∧
       resolveTarget resolve₁ MethodSearch.Virtual r = some r.mid) ∧
    (∀ r t, inst.methodRef = some r →
       resolveTarget resolve₁ MethodSearch.Any r = some t →
       statics.contains t = false →
       dropThisFixerStep resolve₁ statics inst metrics =
         some (inst, none, metrics)) ∧
    (∀ r t, inst.methodRef = some r →
       resolveTarget resolve₁ MethodSearch.Virtual r = some t →
       targets.contains t = false →
       keepFixerStep resolve₁ targets inst metrics = some (inst, metrics)) := by
  refine ⟨?_, ?_, ?_, ?_, ?_⟩
  · intro h
    cases hmr : inst.methodRef with
    | none => simp [dropThisFixerStep, hmr]
    | some r => simp only [dropThisFixerStep, hmr, resolveTarget, h]
  · intro h
    cases hmr : inst.methodRef with
    | none => simp [keepFixerStep, hmr]
    | some r => simp only [keepFixerStep, hmr, resolveTarget, h]
  · intro r _ hc
    simp [resolveTarget, hc]
  · intro r t hm hta hnotin
    simp only [dropThisFixerStep, hm, hta, hnotin, Bool.false_eq_true,
      if_false]
  · intro r t hm htv hnotin
    simp only [keepFixerStep, hm, htv, hnotin, Bool.false_eq_true, if_false]

/-- Concrete virtual call whose (concrete) target 7 is outside the target
set, used by the C9 witness. -/
def instOutside : IRInstruction :=
  ⟨DexOpcode.invoke_virtual, some ⟨7, true⟩, [2], 1, 0, 0, 0⟩

/-- Witness for C9: resolver invariance and the untouched cases at a
concrete call site outside the target set. -/
theorem C9_witness :
    dropThisFixerStep resolveNone [3] instOutside metrics0 =
      dropThisFixerStep resolveNone [3] instOutside metrics0 ∧
    keepFixerStep resolveNone [3] instOutside metrics0 =
      keepFixerStep resolveNone [3] instOutside metrics0 ∧
    (resolveTarget resolveNone MethodSearch.Any ⟨7, true⟩ = some 7 ∧
     resolveTarget resolveNone MethodSearch.Virtual ⟨7, true⟩ = some 7) ∧
    dropThisFixerStep resolveNone [3] instOutside metrics0 =
      some (instOutside, none, metrics0) ∧
    keepFixerStep resolveNone [3] instOutside metrics0 =
      some (instOutside, metrics0) :=
  let T := C9_resolver_strategies resolveNone resolveNone [3] [3]
    instOutside metrics0
  ⟨T.1 (fun _ => rfl), T.2.1 (fun _ => rfl),
   T.2.2.1 ⟨7, true⟩ (by rfl) (by rfl),
   T.2.2.2.1 ⟨7, true⟩ 7 (by rfl) (by rfl) (by decide),
   T.2.2.2.2 ⟨7, true⟩ 7 (by rfl) (by rfl) (by decide)⟩

lemma usedIn_iff_refsReg (r : Nat) (insn : IRInstruction) :
    usedIn r insn = true ↔ refsReg r insn := by
  simp only [usedIn, refsReg, Bool.or_eq_true, Bool.and_eq_true,
    List.any_eq_true, decide_eq_true_eq, beq_iff_eq]
  exact or_comm

/-! ### Claim C5 -/

/-- Claim C5: for a concrete instance method whose first instruction loads
the receiver into a register, the analyzer reports "not used" when no
instruction of the body references that register (as an explicit source
operand or inside a range window) besides the initial load itself, and
reports "used" as soon as one later instruction references it. -/
theorem C5_receiver_usage_soundness
    (m : DexMethod) (first : IRInstruction) (rest : List IRInstruction)
    (hcode : m.code = some (first :: rest))
    (hop : first.opcode = DexOpcode.load_param_object)
    (hsrc : first.srcs = []) :
    ((∀ insn ∈ rest, ¬ refsReg first.dest insn) → uses_this m = some false) ∧
    (∀ insn, insn ∈ rest → refsReg first.dest insn →
       uses_this m = some true) := by
  have hfirst : usedIn first.dest first = false := by
    simp [usedIn, hop, hsrc, has_range, is_invoke_range]
  have hval : uses_this m =
      some ((first :: rest).any (usedIn first.dest)) := by
    simp [uses_this, hcode, hop]
  constructor
  · intro hno
    rw [hval]
    congr 1
    rw [List.any_eq_false]
    intro insn hins
    rcases List.mem_cons.mp hins with h | h
    · subst h; simp [hfirst]
    · intro hc
      exact hno insn h ((usedIn_iff_refsReg _ _).mp hc)
  · intro insn hins href
    rw [hval]
    congr 1
    rw [List.any_eq_true]
    exact ⟨insn, List.mem_cons_of_mem _ hins,
      (usedIn_iff_refsReg _ _).mpr href⟩

/-- Concrete receiver-load and a later instruction reading the receiver
register, used by the C5 witness. -/
def loadInsn1 : IRInstruction :=
  ⟨DexOpcode.load_param_object, none, [], 0, 0, 0, 1⟩

def useInsn1 : IRInstruction :=
  ⟨DexOpcode.other, none, [1], 1, 0, 0, 0⟩

def mUsing : DexMethod := ⟨1, false, false, false, some [loadInsn1, useInsn1]⟩

/-- Witness for C5: the analyzer reports "used" on a method whose second
instruction reads the receiver register. -/
theorem C5_witness : uses_this mUsing = some true :=
  (C5_receiver_usage_soundness mUsing loadInsn1 [useInsn1]
      (by rfl) (by rfl) (by rfl)).2
    useInsn1 (by simp) (Or.inl ⟨1, by simp [useInsn1], rfl⟩)

lemma filterNotUsingThis_eq {l res : List DexMethod}
    (h : filterNotUsingThis l = some res) :
    res = l.filter fun m => uses_this m == some false := by
  induction l generalizing res with
  | nil =>
    simp only [filterNotUsingThis, Option.some.injEq] at h
    simp [← h]
  | cons a l ih =>
    simp only [filterNotUsingThis] at h
    cases hu : uses_this a with
    | none => rw [hu] at h; cases h
    | some b =>
      rw [hu] at h
      cases b with
      | true =>
        rw [ih h]
        simp [List.filter_cons, hu]
      | false =>
        cases hf : filterNotUsingThis l with
        | none => rw [hf] at h; cases h
        | some res' =>
          rw [hf] at h
          simp only [Option.map_some', Option.some.injEq] at h
          subst h
          rw [ih hf]
          simp [List.filter_cons, hu]

lemma filterNotUsingThis_none {l : List DexMethod} {m : DexMethod}
    (hm : m ∈ l) (hu : uses_this m = none) :
    filterNotUsingThis l = none := by
  induction l with
  | nil => cases hm
  | cons a l ih =>
    simp only [filterNotUsingThis]
    rcases List.mem_cons.mp hm with h | h
    · subst h; rw [hu]
    · cases hua : uses_this a with
      | none => rfl
      | some b => cases b <;> simp [ih h]

/-! ### Claim C6 -/

/-- Concrete eligible method whose body never reads the receiver register
after the initial load; it lands in the not-using-receiver candidate set
and also in the full eligible set the using-receiver phases consume. -/
def mNotUsing : DexMethod := ⟨0, false, false, false, some [loadInsn1]⟩

/-- Counterexample to C6 as stated: the not-using-receiver candidate set of
`[mNotUsing]` contains `mNotUsing`, and the candidate set the
using-receiver phases consume (`devirtualizable_methods`, cf.
MethodDevirtualizer.cpp:299 and :305) contains the very same method, so
the method does not appear in exactly one of the two sets. -/
theorem C6_counterexample :
    devirtualizable_methods_not_using_this [mNotUsing] = some [mNotUsing] ∧
    mNotUsing ∈ devirtualizable_methods [mNotUsing] := by
  constructor
  · rfl
  · simp [devirtualizable_methods, mNotUsing]

/-- Claim C6 (amended): the receiver-usage analyzer splits the eligible
candidates exclusively as a predicate — the not-using-receiver set holds
exactly the eligible methods on which the analyzer reports "not used" —
but the candidate set used by a using-receiver phase is the full eligible
set, of which the not-using-receiver set is a subset, so an eligible
method that does not use its receiver belongs to both sets computed from
the same candidate list. -/
theorem C6_partition_amended
    (candidates res : List DexMethod)
    (h : devirtualizable_methods_not_using_this candidates = some res) :
    (∀ m, m ∈ res ↔
       m ∈ devirtualizable_methods candidates ∧ uses_this m = some false) ∧
    (∀ m, m ∈ res → m ∈ devirtualizable_methods candidates) := by
  have he := filterNotUsingThis_eq h
  subst he
  constructor
  · intro m
    simp [List.mem_filter]
  · intro m hm
    exact (List.mem_filter.mp hm).1

/-- Witness for the amended C6 at the concrete one-method candidate list. -/
theorem C6_witness :
    (∀ m, m ∈ [mNotUsing] ↔
       m ∈ devirtualizable_methods [mNotUsing] ∧
       uses_this m = some false) ∧
    (∀ m, m ∈ [mNotUsing] → m ∈ devirtualizable_methods [mNotUsing]) :=
  C6_partition_amended [mNotUsing] [mNotUsing] (by rfl)

/-! ### Claim C8 -/

/-- Concrete eligible method with code but no instructions. -/
def mEmptyBody : DexMethod := ⟨7, false, false, false, some []⟩

/-- Counterexample to C8 as stated: classification for a using-receiver
phase (`devirtualizable_methods`, the candidate computation of
MethodDevirtualizer.cpp:299 and :305) never inspects the body, so an
eligible method with no body instructions is classified—and selected for
conversion—without any fail-fast, while only the not-using-receiver
classification fails on it. -/
theorem C8_counterexample :
    devirtualizable_methods [mEmptyBody] = [mEmptyBody] ∧
    devirtualizable_methods_not_using_this [mEmptyBody] = none := by
  constructor <;> rfl

/-- Claim C8 (amended): only the not-using-receiver phases inspect a
candidate's body during classification; there, a candidate with no code,
with an empty instruction list, or whose first instruction is not the
receiver load makes the receiver-usage analyzer signal an
internal-consistency error, which aborts that phase's classification.  The
using-receiver phases' classification never inspects the body. -/
theorem C8_fail_fast_amended
    (m : DexMethod) (cands : List DexMethod)
    (helig : m ∈ devirtualizable_methods cands)
    (hbad : m.code = none ∨ m.code = some [] ∨
            ∃ first rest, m.code = some (first :: rest) ∧
              first.opcode ≠ DexOpcode.load_param_object) :
    uses_this m = none ∧
    devirtualizable_methods_not_using_this cands = none := by
  have hu : uses_this m = none := by
    rcases hbad with h | h | ⟨first, rest, h, hop⟩
    · simp [uses_this, h]
    · simp [uses_this, h]
    · simp [uses_this, h, hop]
  exact ⟨hu, filterNotUsingThis_none helig hu⟩

/-- Witness for the amended C8 at the concrete empty-body method. -/
theorem C8_witness :
    uses_this mEmptyBody = none ∧
    devirtualizable_methods_not_using_this [mEmptyBody] = none :=
  C8_fail_fast_amended mEmptyBody [mEmptyBody]
    (by simp [devirtualizable_methods, mEmptyBody])
    (Or.inr (Or.inl (by rfl)))

lemma virtual_not_static {o : DexOpcode}
    (h : is_invoke_virtual o = true) : is_invoke_static o = false := by
  cases o <;> simp_all [is_invoke_virtual, is_invoke_static]

lemma keepFixerStep_touched_eq {resolve : Nat → MethodSearch → Option Nat}
    {targets : List Nat} {inst : IRInstruction}
    (metrics : DevirtualizerMetrics)
    (ht : keepTouches resolve targets inst = true) :
    ∃ r t, inst.methodRef = some r ∧
      resolveTarget resolve MethodSearch.Virtual r = some t ∧
      targets.contains t = true ∧
      keepFixerStep resolve targets inst metrics =
        (if is_invoke_static inst.opcode then none
         else patch_call_site t inst metrics) := by
  unfold keepTouches at ht
  cases hm : inst.methodRef with
  | none =>
    simp only [hm] at ht
    exact absurd ht (by simp)
  | some r =>
    simp only [hm] at ht
    cases hrt : resolveTarget resolve MethodSearch.Virtual r with
    | none =>
      simp only [hrt] at ht
      exact absurd ht (by simp)
    | some t =>
      simp only [hrt] at ht
      exact ⟨r, t, rfl, hrt, ht,
        by simp only [keepFixerStep, hm, hrt, ht, if_true]⟩

lemma keepFixerStep_untouched {resolve : Nat → MethodSearch → Option Nat}
    {targets : List Nat} {inst : IRInstruction}
    (metrics : DevirtualizerMetrics)
    (ht : keepTouches resolve targets inst = false) :
    keepFixerStep resolve targets inst metrics = some (inst, metrics) := by
  unfold keepTouches at ht
  cases hm : inst.methodRef with
  | none => simp [keepFixerStep, hm]
  | some r =>
    simp only [hm] at ht
    cases hrt : resolveTarget resolve MethodSearch.Virtual r with
    | none => simp [keepFixerStep, hm, hrt]
    | some t =>
      simp only [hrt] at ht
      simp only [keepFixerStep, hm, hrt, ht, Bool.false_eq_true, if_false]

lemma fix_call_sites_virtual_counts
    (resolve : Nat → MethodSearch → Option Nat) (targets : List Nat)
    (code : List IRInstruction) (metrics : DevirtualizerMetrics)
    (hvirt : ∀ x ∈ code, keepTouches resolve targets x = true →
       is_invoke_virtual x.opcode = true) :
    ∃ out mf, fix_call_sites resolve targets code metrics = some (out, mf) ∧
      mf.num_virtual_calls = metrics.num_virtual_calls +
        code.countP (keepTouches resolve targets) ∧
      mf.num_super_calls = metrics.num_super_calls ∧
      mf.num_direct_calls = metrics.num_direct_calls := by
  induction code generalizing metrics with
  | nil => exact ⟨[], metrics, rfl, by simp, rfl, rfl⟩
  | cons inst rest ih =>
    have hvrest : ∀ x ∈ rest, keepTouches resolve targets x = true →
        is_invoke_virtual x.opcode = true :=
      fun x hx => hvirt x (List.mem_cons_of_mem _ hx)
    by_cases ht : keepTouches resolve targets inst = true
    · have hv := hvirt inst (List.mem_cons_self _ _) ht
      obtain ⟨r, t, hm, hrt, hin, hstep⟩ := keepFixerStep_touched_eq metrics ht
      rw [virtual_not_static hv] at hstep
      simp only [Bool.false_eq_true, if_false] at hstep
      obtain ⟨⟨inst1, metrics1⟩, hp⟩ :=
        @patch_call_site_isSome t inst metrics (by simp [hv])
      have hc := (patch_call_site_counters hp).1 hv
      subst hc
      have hstep' : keepFixerStep resolve targets inst metrics =
          some (inst1, { metrics with
                           num_virtual_calls := metrics.num_virtual_calls + 1 }) := by
        rw [hstep, hp]
      obtain ⟨out, mf, hrec, h1, h2, h3⟩ :=
        ih { metrics with
               num_virtual_calls := metrics.num_virtual_calls + 1 } hvrest
      refine ⟨inst1 :: out, mf, ?_, ?_, h2, h3⟩
      · simp only [fix_call_sites, hstep', hrec]
      · rw [h1]
        simp only [List.countP_cons, ht]
        simp
        omega
    · have ht' : keepTouches resolve targets inst = false := by
        simpa using ht
      have hstep' := keepFixerStep_untouched metrics ht'
      obtain ⟨out, mf, hrec, h1, h2, h3⟩ := ih metrics hvrest
      refine ⟨inst :: out, mf, ?_, ?_, h2, h3⟩
      · simp only [fix_call_sites, hstep', hrec]
      · rw [h1]
        simp [List.countP_cons, ht']

/-! ### Claim C3 -/

/-- Claim C3: every patched instruction's opcode is translated to the
static-call kind in its own encoding form, and exactly one outcome counter
is incremented — the one matching the instruction's original call kind;
consequently a keep-receiver run in which every touched call site is a
virtual call succeeds, its virtual-call counter grows by exactly the
number of touched call sites, and the super and direct counters are
unchanged. -/
theorem C3_translation_and_counters
    (callee : Nat) (inst : IRInstruction)
    (resolve : Nat → MethodSearch → Option Nat) (targets : List Nat)
    (code : List IRInstruction) (metrics : DevirtualizerMetrics) :
    (∀ inst' metrics',
       patch_call_site callee inst metrics = some (inst', metrics') →
       (is_invoke_static inst'.opcode = true ∧
        is_invoke_range inst'.opcode = is_invoke_range inst.opcode) ∧
       (is_invoke_virtual inst.opcode = true →
          metrics' = { metrics with
                         num_virtual_calls := metrics.num_virtual_calls + 1 }) ∧
       (is_invoke_super inst.opcode = true →
          metrics' = { metrics with
                         num_super_calls := metrics.num_super_calls + 1 }) ∧
       (is_invoke_direct inst.opcode = true →
          metrics' = { metrics with
                         num_direct_calls := metrics.num_direct_calls + 1 })) ∧
    ((∀ x ∈ code, keepTouches resolve targets x = true →
        is_invoke_virtual x.opcode = true) →
       ∃ out mf, fix_call_sites resolve targets code metrics = some (out, mf) ∧
         mf.num_virtual_calls = metrics.num_virtual_calls +
           code.countP (keepTouches resolve targets) ∧
         mf.num_super_calls = metrics.num_super_calls ∧
         mf.num_direct_calls = metrics.num_direct_calls) := by
  constructor
  · intro inst' metrics' hp
    obtain ⟨hs, hr, _⟩ := patch_call_site_spec hp
    exact ⟨⟨hs, hr⟩, patch_call_site_counters hp⟩
  · exact fix_call_sites_virtual_counts resolve targets code metrics

/-- Witness for C3 at a concrete one-instruction body holding an explicit
virtual call to method 3. -/
theorem C3_witness :
    ((is_invoke_static
        ({ instV2 with opcode := DexOpcode.invoke_static,
                       methodRef := some ⟨3, true⟩ } : IRInstruction).opcode
        = true ∧
      is_invoke_range
        ({ instV2 with opcode := DexOpcode.invoke_static,
                       methodRef := some ⟨3, true⟩ } : IRInstruction).opcode
        = is_invoke_range instV2.opcode) ∧
     (is_invoke_virtual instV2.opcode = true →
        (⟨1, 0, 0, 0, 0⟩ : DevirtualizerMetrics) =
          { metrics0 with
              num_virtual_calls := metrics0.num_virtual_calls + 1 }) ∧
     (is_invoke_super instV2.opcode = true →
        (⟨1, 0, 0, 0, 0⟩ : DevirtualizerMetrics) =
          { metrics0 with
              num_super_calls := metrics0.num_super_calls + 1 }) ∧
     (is_invoke_direct instV2.opcode = true →
        (⟨1, 0, 0, 0, 0⟩ : DevirtualizerMetrics) =
          { metrics0 with
              num_direct_calls := metrics0.num_direct_calls + 1 })) ∧
    (∃ out mf,
       fix_call_sites resolveNone [3] [instV2] metrics0 = some (out, mf) ∧
       mf.num_virtual_calls = metrics0.num_virtual_calls +
         [instV2].countP (keepTouches resolveNone [3]) ∧
       mf.num_super_calls = metrics0.num_super_calls ∧
       mf.num_direct_calls = metrics0.num_direct_calls) :=
  let T := C3_translation_and_counters 3 instV2 resolveNone [3] [instV2]
    metrics0
  ⟨T.1 { instV2 with opcode := DexOpcode.invoke_static,
                     methodRef := some ⟨3, true⟩ }
     ⟨1, 0, 0, 0, 0⟩ (by decide),
   T.2 (by decide)⟩

lemma scanDrop_length {resolve : Nat → MethodSearch → Option Nat}
    {statics : List Nat} {code : List IRInstruction}
    {metrics mf : DevirtualizerMetrics}
    {scanned : List (IRInstruction × Option IRInstruction)}
    (h : scanDrop resolve statics code metrics = some (scanned, mf)) :
    scanned.length = code.length := by
  induction code generalizing metrics scanned mf with
  | nil =>
    simp only [scanDrop, Option.some.injEq, Prod.mk.injEq] at h
    obtain ⟨h1, _⟩ := h
    subst h1
    rfl
  | cons inst rest ih =>
    cases hs : dropThisFixerStep resolve statics inst metrics with
    | none =>
      simp only [scanDrop, hs] at h
      exact Option.noConfusion h
    | some trip =>
      obtain ⟨inst1, rep, m1⟩ := trip
      simp only [scanDrop, hs] at h
      cases hr : scanDrop resolve statics rest m1 with
      | none =>
        simp only [hr] at h
        exact Option.noConfusion h
      | some pr =>
        obtain ⟨outRest, mF⟩ := pr
        simp only [hr, Option.some.injEq, Prod.mk.injEq] at h
        obtain ⟨h1, _⟩ := h
        subst h1
        simp [ih hr]

lemma scanDrop_get {resolve : Nat → MethodSearch → Option Nat}
    {statics : List Nat} {code : List IRInstruction}
    {metrics mf : DevirtualizerMetrics}
    {scanned : List (IRInstruction × Option IRInstruction)}
    (h : scanDrop resolve statics code metrics = some (scanned, mf)) :
    ∀ j x, code.get? j = some x →
      ∃ x' rep m1 m2,
        dropThisFixerStep resolve statics x m1 = some (x', rep, m2) ∧
        scanned.get? j = some (x', rep) := by
  induction code generalizing metrics scanned mf with
  | nil => intro j x hx; cases hx
  | cons inst rest ih =>
    intro j x hx
    cases hs : dropThisFixerStep resolve statics inst metrics with
    | none =>
      simp only [scanDrop, hs] at h
      exact Option.noConfusion h
    | some trip =>
      obtain ⟨inst1, rep, m1⟩ := trip
      simp only [scanDrop, hs] at h
      cases hr : scanDrop resolve statics rest m1 with
      | none =>
        simp only [hr] at h
        exact Option.noConfusion h
      | some pr =>
        obtain ⟨outRest, mF⟩ := pr
        simp only [hr, Option.some.injEq, Prod.mk.injEq] at h
        obtain ⟨h1, h2⟩ := h
        subst h1
        cases j with
        | zero =>
          simp only [List.get?_cons_zero, Option.some.injEq] at hx
          subst hx
          exact ⟨inst1, rep, metrics, m1, hs, rfl⟩
        | succ j =>
          simp only [List.get?_cons_succ] at hx
          obtain ⟨x', rep', m1', m2', hstep', hget'⟩ := ih hr j x hx
          exact ⟨x', rep', m1', m2', hstep', by simpa using hget'⟩

lemma dropFirstArgExplicit_opcode (inst : IRInstruction) :
    (dropFirstArgExplicit inst).opcode = inst.opcode := rfl

lemma dropStep_apply_ne
    {resolve : Nat → MethodSearch → Option Nat} {statics : List Nat}
    {inst : IRInstruction} {r : MethodRef} {t : Nat}
    (hm : inst.methodRef = some r)
    (hta : resolveTarget resolve MethodSearch.Any r = some t)
    (hin : statics.contains t = true)
    (hnstat : is_invoke_static inst.opcode = false)
    {x x' : IRInstruction} {rep : Option IRInstruction}
    {m1 m2 : DevirtualizerMetrics}
    (hstep : dropThisFixerStep resolve statics x m1 = some (x', rep, m2)) :
    rep.getD x' ≠ inst := by
  cases hmx : x.methodRef with
  | none =>
    simp only [dropThisFixerStep, hmx, Option.some.injEq, Prod.mk.injEq] at hstep
    obtain ⟨h1, h2, _⟩ := hstep
    subst h1
    subst h2
    simp only [Option.getD_none]
    intro hc
    rw [hc, hm] at hmx
    cases hmx
  | some rx =>
    cases hrx : resolveTarget resolve MethodSearch.Any rx with
    | none =>
      simp only [dropThisFixerStep, hmx, hrx, Option.some.injEq,
        Prod.mk.injEq] at hstep
      obtain ⟨h1, h2, _⟩ := hstep
      subst h1
      subst h2
      simp only [Option.getD_none]
      intro hc
      rw [hc, hm] at hmx
      injection hmx with hrr
      subst hrr
      rw [hta] at hrx
      cases hrx
    | some tx =>
      cases hcx : statics.contains tx with
      | false =>
        simp only [dropThisFixerStep, hmx, hrx, hcx, Bool.false_eq_true,
          if_false, Option.some.injEq, Prod.mk.injEq] at hstep
        obtain ⟨h1, h2, _⟩ := hstep
        subst h1
        subst h2
        simp only [Option.getD_none]
        intro hc
        rw [hc, hm] at hmx
        injection hmx with hrr
        subst hrr
        rw [hta] at hrx
        injection hrx with htt
        subst htt
        rw [hin] at hcx
        cases hcx
      | true =>
        cases hp : patch_call_site tx x m1 with
        | none =>
          rw [dropThisFixerStep_touched_none hmx hrx hcx hp] at hstep
          cases hstep
        | some p =>
          obtain ⟨x1, m1'⟩ := p
          rw [dropThisFixerStep_touched_some hmx hrx hcx hp] at hstep
          obtain ⟨hstat1, _⟩ := patch_call_site_spec hp
          cases hir : is_invoke_range x1.opcode with
          | true =>
            rw [hir] at hstep
            simp only [if_true] at hstep
            cases hsz1 : (x1.rangeSize == 1) with
            | true =>
              rw [hsz1] at hstep
              simp only [if_true, Option.some.injEq, Prod.mk.injEq] at hstep
              obtain ⟨h1, h2, _⟩ := hstep
              subst h1
              subst h2
              simp only [Option.getD_some]
              intro hc
              have hst : is_invoke_static inst.opcode = true := by
                rw [← hc]; rfl
              rw [hnstat] at hst
              cases hst
            | false =>
              rw [hsz1] at hstep
              simp only [Bool.false_eq_true, if_false, Option.some.injEq,
                Prod.mk.injEq] at hstep
              obtain ⟨h1, h2, _⟩ := hstep
              subst h1
              subst h2
              simp only [Option.getD_none]
              intro hc
              have hst : is_invoke_static inst.opcode = true := by
                rw [← hc]; exact hstat1
              rw [hnstat] at hst
              cases hst
          | false =>
            rw [hir] at hstep
            simp only [Bool.false_eq_true, if_false, Option.some.injEq,
              Prod.mk.injEq] at hstep
            obtain ⟨h1, h2, _⟩ := hstep
            subst h1
            subst h2
            simp only [Option.getD_none]
            intro hc
            have hst : is_invoke_static inst.opcode = true := by
              rw [← hc, dropFirstArgExplicit_opcode]
              exact hstat1
            rw [hnstat] at hst
            cases hst

lemma range_nonstatic_kind {o : DexOpcode}
    (h1 : is_invoke_range o = true) (h2 : is_invoke_static o = false) :
    (is_invoke_virtual o || is_invoke_super o || is_invoke_direct o) = true := by
  cases o <;> simp_all [is_invoke_virtual, is_invoke_super, is_invoke_direct,
    is_invoke_static, is_invoke_range]

/-! ### Claim C2 -/

/-- Claim C2: a range-form call with window size exactly 1 whose resolved
target is in the drop-receiver set is replaced wholesale by a newly
constructed explicit-form static call with zero arguments and the same
target: the final stream holds the replacement at that position, no
position of the final stream holds the original instruction, and the
replacement is recorded during the scan (which still carries a range-form
instruction in the stream at that position) and applied only after the
scan over the body completes. -/
theorem C2_range_degenerate_replacement
    (resolve : Nat → MethodSearch → Option Nat) (statics : List Nat)
    (code out : List IRInstruction) (metrics mf : DevirtualizerMetrics)
    (i : Nat) (inst : IRInstruction) (r : MethodRef) (t : Nat)
    (hi : code.get? i = some inst)
    (hm : inst.methodRef = some r)
    (hta : resolveTarget resolve MethodSearch.Any r = some t)
    (hin : statics.contains t = true)
    (hrange : is_invoke_range inst.opcode = true)
    (hnstat : is_invoke_static inst.opcode = false)
    (hsz : inst.rangeSize = 1)
    (hrun : fix_call_sites_and_drop_this_arg resolve statics code metrics =
              some (out, mf)) :
    out.get? i = some (mkZeroArgStatic t) ∧
    (∀ j, out.get? j ≠ some inst) ∧
    (∃ scanned m1,
       scanDrop resolve statics code metrics = some (scanned, m1) ∧
       out = applyReplacements scanned ∧
       ∃ inst1, scanned.get? i = some (inst1, some (mkZeroArgStatic t)) ∧
         is_invoke_range inst1.opcode = true) := by
  cases hscan : scanDrop resolve statics code metrics with
  | none =>
    simp only [fix_call_sites_and_drop_this_arg, hscan] at hrun
    exact Option.noConfusion hrun
  | some pr =>
    obtain ⟨scanned, m1⟩ := pr
    simp only [fix_call_sites_and_drop_this_arg, hscan, Option.some.injEq,
      Prod.mk.injEq] at hrun
    obtain ⟨hout, hmf⟩ := hrun
    obtain ⟨x', rep', mm1, mm2, hstep, hget⟩ := scanDrop_get hscan i inst hi
    obtain ⟨⟨inst1, metrics1⟩, hp⟩ :=
      @patch_call_site_isSome t inst mm1
        (range_nonstatic_kind hrange hnstat)
    obtain ⟨hstat1, hrng1, hmr1, hs1, ha1, hrb1, hrs1, hd1⟩ :=
      patch_call_site_spec hp
    rw [dropThisFixerStep_touched_some hm hta hin hp] at hstep
    rw [hrng1, hrange] at hstep
    simp only [if_true] at hstep
    have hone : (inst1.rangeSize == 1) = true := by
      rw [hrs1, hsz]
      rfl
    rw [hone] at hstep
    simp only [if_true, Option.some.injEq, Prod.mk.injEq] at hstep
    obtain ⟨hx, hrep, _⟩ := hstep
    subst hx
    subst hrep
    refine ⟨?_, ?_, scanned, m1, rfl, hout.symm, inst1, hget, ?_⟩
    · rw [← hout]
      simp only [applyReplacements, List.get?_map, hget, Option.map_some',
        Option.getD_some]
    · intro j hcon
      rw [← hout] at hcon
      simp only [applyReplacements, List.get?_map] at hcon
      obtain ⟨p, hpj, hfp⟩ := Option.map_eq_some'.mp hcon
      have hj : j < scanned.length := by
        rcases List.get?_eq_some.mp hpj with ⟨hlt, _⟩
        exact hlt
      have hjc : j < code.length := by
        rw [← scanDrop_length hscan]
        exact hj
      have hxj : code.get? j = some (code.get ⟨j, hjc⟩) := List.get?_eq_get hjc
      obtain ⟨x2, rep2, n1, n2, hstep2, hget2⟩ :=
        scanDrop_get hscan j _ hxj
      rw [hget2] at hpj
      injection hpj with hpj
      subst hpj
      exact dropStep_apply_ne hm hta hin hnstat hstep2 hfp
    · rw [hrng1]
      exact hrange

/-- Concrete size-1 range virtual call to method 3, used by the C2 witness. -/
def instR1 : IRInstruction :=
  ⟨DexOpcode.invoke_virtual_range, some ⟨3, true⟩, [], 0, 4, 1, 0⟩

/-- Witness for C2 at a one-instruction body holding a size-1 range call. -/
theorem C2_witness :
    [mkZeroArgStatic 3].get? 0 = some (mkZeroArgStatic 3) ∧
    (∀ j, ([mkZeroArgStatic 3] : List IRInstruction).get? j ≠ some instR1) ∧
    (∃ scanned m1,
       scanDrop resolveNone [3] [instR1] metrics0 = some (scanned, m1) ∧
       [mkZeroArgStatic 3] = applyReplacements scanned ∧
       ∃ inst1, scanned.get? 0 = some (inst1, some (mkZeroArgStatic 3)) ∧
         is_invoke_range inst1.opcode = true) :=
  C2_range_degenerate_replacement resolveNone [3] [instR1]
    [mkZeroArgStatic 3] metrics0 ⟨1, 0, 0, 0, 0⟩ 0 instR1 ⟨3, true⟩ 3
    (by rfl) (by rfl) (by rfl) (by decide) (by decide) (by decide) (by rfl)
    (by decide)
